import Mathlib

/-!
Verification of the root-finding solver hierarchy of `classZeroFun.hpp`.

The C++ code works on IEEE doubles.  We embed `T::Real` as `FP := Option ℚ`:
`some q` is an ordinary (finite) value and `none` is the NaN sentinel that the
constructor of `SolverWithInterval` uses to signal a failed bracket repair.
The embedding keeps the two properties of NaN that the code relies on:
every ordered comparison involving NaN is false, and NaN propagates through
arithmetic.  Division by zero yields `none` (in IEEE, `0/0` is NaN; a nonzero
numerator would give an infinity, which the code paths treated below never
feed into a comparison that would distinguish it from NaN: an infinite or NaN
trial point fails the same strict-inclusion guards a NaN one fails).

The header `classZeroFun.hpp` only declares `bracketInterval` and the
`solve()` members; their bodies are not part of the supplied sources, so they
are modelled from the specification (each such definition is marked
`Modelled from the spec:`).  The constructors of `SolverWithInterval`,
`Newton` and `QuasiNewton` are fully given in the header and are transcribed
directly.
-/

/-- Embedded `T::Real`: a rational value or the NaN sentinel. -/
abbrev FP := Option ℚ

namespace FP

/-- NaN-propagating addition. -/
def add : FP → FP → FP
  | some x, some y => some (x + y)
  | _, _ => none

/-- NaN-propagating subtraction. -/
def sub : FP → FP → FP
  | some x, some y => some (x - y)
  | _, _ => none

/-- NaN-propagating multiplication. -/
def mul : FP → FP → FP
  | some x, some y => some (x * y)
  | _, _ => none

/-- NaN-propagating division; division by zero yields the sentinel. -/
def div : FP → FP → FP
  | some x, some y => if y = 0 then none else some (x / y)
  | _, _ => none

/-- Negation (`-NaN` is still NaN, as in IEEE). -/
def neg : FP → FP
  | some x => some (-x)
  | none => none

/-- Absolute value. -/
def fabs : FP → FP
  | some x => some |x|
  | none => none

/-- Strict order; false whenever an operand is NaN, as for IEEE `<`. -/
def flt : FP → FP → Bool
  | some x, some y => decide (x < y)
  | _, _ => false

/-- Non-strict order; false whenever an operand is NaN, as for IEEE `<=`. -/
def fle : FP → FP → Bool
  | some x, some y => decide (x ≤ y)
  | _, _ => false

/-- Strict order, reversed; embeds IEEE `>`. -/
def fgt (x y : FP) : Bool := flt y x

/-- Equality test; false whenever an operand is NaN, as for IEEE `==`. -/
def feq : FP → FP → Bool
  | some x, some y => decide (x = y)
  | _, _ => false

theorem flt_none_right (x : FP) : flt x none = false := by cases x <;> rfl

theorem flt_none_left (x : FP) : flt none x = false := rfl

theorem feq_zero_iff (x : FP) : feq x (some 0) = true ↔ x = some 0 := by
  cases x <;> simp [feq]

/-- The midpoint of two ordinary values is an ordinary value. -/
theorem div_two_some (x y : ℚ) :
    div (add (some x) (some y)) (some 2) = some ((x + y) / 2) := by
  norm_num [add, div]

end FP

/-- Embedded `T::FunType`: an opaque callable on doubles. -/
abbrev FunType := FP → FP

/-- Fields of the abstract base `SolverBase`: the function and the tolerance. -/
structure SolverBase where
  f : FunType
  tol : FP

/-- Fields of `SolverWithInterval` (its constructor is `mkWith` below). -/
structure SolverWithInterval extends SolverBase where
  a : FP
  b : FP
  x1 : FP
  h_interval : FP
  maxIter : ℕ

/-- Modelled from the spec: the body of `bracketInterval` is declared but not
defined in the supplied header.  Following the specification, the loop probes
`x1 - k*h` and `x1 + k*h` for `k = 1, 2, ...` and reports the first adjacent
pair on one side whose function values show a sign change (product `≤ 0`). -/
def bracketLoop (f : FunType) (x1 h prevL prevR : FP) (k : ℕ) : ℕ → FP × FP × Bool
  | 0 => (x1, x1, false)
  | fuel + 1 =>
    let newL := FP.sub x1 (FP.mul (some (k : ℚ)) h)
    let newR := FP.add x1 (FP.mul (some (k : ℚ)) h)
    if FP.fle (FP.mul (f newL) (f prevL)) (some 0) then (newL, prevL, true)
    else if FP.fle (FP.mul (f prevR) (f newR)) (some 0) then (prevR, newR, true)
    else bracketLoop f x1 h newL newR (k + 1) fuel

/-- Modelled from the spec: `bracketInterval(f, x1, h, maxIter)`.  A zero step
`h` is rejected immediately with `found = false`; a seed that is already a
root short-circuits to the degenerate bracket `(x1, x1)`; otherwise the
outward search runs for at most `maxIter` probe pairs. -/
def bracketInterval (f : FunType) (x1 h : FP) (maxIter : ℕ) : FP × FP × Bool :=
  if FP.feq h (some 0) then (x1, x1, false)
  else if FP.feq (f x1) (some 0) then (x1, x1, true)
  else bracketLoop f x1 h x1 x1 1 maxIter

/-- Constructor of `SolverWithInterval`, transcribed from the header, but
parameterised by the bracket finder it delegates to (whose body is not among
the supplied sources).  It stores `f`, `tol`, the endpoints, the seed midpoint
`x1 = (a+b)/2`, the step and the budget; when `f(a)*f(b) > 0` it calls the
finder and either adopts the returned bracket or sets both endpoints to the
NaN sentinel. -/
def SolverWithInterval.mkWith (finder : FunType → FP → FP → ℕ → FP × FP × Bool)
    (f : FunType) (a b tol h_interval : FP) (maxIter : ℕ) : SolverWithInterval :=
  let x1 := FP.div (FP.add a b) (some 2)
  if FP.fgt (FP.mul (f a) (f b)) (some 0) then
    let result := finder f x1 h_interval maxIter
    if result.2.2 then
      { f := f, tol := tol, a := result.1, b := result.2.1, x1 := x1,
        h_interval := h_interval, maxIter := maxIter }
    else
      { f := f, tol := tol, a := none, b := none, x1 := x1,
        h_interval := h_interval, maxIter := maxIter }
  else
    { f := f, tol := tol, a := a, b := b, x1 := x1,
      h_interval := h_interval, maxIter := maxIter }

/-- Constructor of `SolverWithInterval` exactly as in the header: it delegates
to the member `bracketInterval`. -/
def SolverWithInterval.construct (f : FunType) (a b tol h_interval : FP) (maxIter : ℕ) :
    SolverWithInterval :=
  SolverWithInterval.mkWith bracketInterval f a b tol h_interval maxIter

/-- Sample run of the modelled bracket repair: for `f(x) = x^2 - 4` on the
invalid interval `[3, 10]` with step `2`, the search finds the bracket end
`1/2` left of the seed midpoint `13/2`. -/
theorem construct_repair_sample :
    (SolverWithInterval.construct
        (fun x => FP.sub (FP.mul x x) (some 4)) (some 3) (some 10)
        (some (1/1000)) (some 2) 5).a = some (1/2) := by
  norm_num [SolverWithInterval.construct, SolverWithInterval.mkWith, bracketInterval,
    bracketLoop, FP.fgt, FP.flt, FP.fle, FP.feq, FP.mul, FP.add, FP.sub, FP.div]

/-- A successful result of the modelled bracket search always carries a pair
whose function values have product `≤ 0`. -/
theorem bracketLoop_found (f : FunType) (x1 h : FP) :
    ∀ (fuel : ℕ) (prevL prevR : FP) (k : ℕ),
      (bracketLoop f x1 h prevL prevR k fuel).2.2 = true →
      FP.fle (FP.mul (f (bracketLoop f x1 h prevL prevR k fuel).1)
        (f (bracketLoop f x1 h prevL prevR k fuel).2.1)) (some 0) = true := by
  intro fuel
  induction fuel with
  | zero => intro prevL prevR k hfound; simp [bracketLoop] at hfound
  | succ n ih =>
    intro prevL prevR k hfound
    by_cases h1 : FP.fle (FP.mul (f (FP.sub x1 (FP.mul (some (k : ℚ)) h))) (f prevL))
        (some 0) = true
    · simp [bracketLoop, h1]
    · by_cases h2 : FP.fle (FP.mul (f prevR) (f (FP.add x1 (FP.mul (some (k : ℚ)) h))))
          (some 0) = true
      · simp [bracketLoop, h1, h2]
      · have hrec := ih (FP.sub x1 (FP.mul (some (k : ℚ)) h))
          (FP.add x1 (FP.mul (some (k : ℚ)) h)) (k + 1)
        simp only [bracketLoop, h1, h2, if_false, Bool.false_eq_true] at hfound ⊢
        exact hrec hfound

/-- A successful `bracketInterval` always returns a pair whose function values
have product `≤ 0` (the degenerate root case gives `f x1 = 0`). -/
theorem bracketInterval_found (f : FunType) (x1 h : FP) (n : ℕ)
    (hfound : (bracketInterval f x1 h n).2.2 = true) :
    FP.fle (FP.mul (f (bracketInterval f x1 h n).1)
      (f (bracketInterval f x1 h n).2.1)) (some 0) = true := by
  by_cases hh : FP.feq h (some 0) = true
  · simp [bracketInterval, hh] at hfound
  · by_cases hx : FP.feq (f x1) (some 0) = true
    · have hfx : f x1 = some 0 := (FP.feq_zero_iff (f x1)).1 hx
      have hh' : FP.feq h (some 0) = false := by simpa using hh
      simp [bracketInterval, hh', hx]
      rw [hfx]
      simp [FP.mul, FP.fle]
    · simp only [bracketInterval, hh, hx, if_false, Bool.false_eq_true] at hfound ⊢
      exact bracketLoop_found f x1 h n x1 x1 1 hfound

/-- Shared helper: when the validity test `f(a)*f(b) > 0` is false, the
constructor is a pure record constructor and never consults the finder. -/
theorem mkWith_not_gt (finder : FunType → FP → FP → ℕ → FP × FP × Bool)
    (f : FunType) (a b tol h : FP) (n : ℕ)
    (hvalid : FP.fgt (FP.mul (f a) (f b)) (some 0) = false) :
    SolverWithInterval.mkWith finder f a b tol h n =
      { f := f, tol := tol, a := a, b := b, x1 := FP.div (FP.add a b) (some 2),
        h_interval := h, maxIter := n } := by
  simp [SolverWithInterval.mkWith, hvalid]

/-- C1: for every interval-based solver constructed with `f(a)*f(b) > 0`, the
constructor computes the seed midpoint `x1 = (a+b)/2` and calls the bracket
finder on `(f, x1, h_interval, maxIter)`; on success the endpoints become the
returned bracket, otherwise both are set to the NaN sentinel. -/
theorem mkWith_invalid_calls_finder
    (finder : FunType → FP → FP → ℕ → FP × FP × Bool)
    (f : FunType) (a b tol h : FP) (n : ℕ)
    (hpos : FP.fgt (FP.mul (f a) (f b)) (some 0) = true) :
    (SolverWithInterval.mkWith finder f a b tol h n).x1
        = FP.div (FP.add a b) (some 2) ∧
    ((finder f (FP.div (FP.add a b) (some 2)) h n).2.2 = true →
      (SolverWithInterval.mkWith finder f a b tol h n).a
          = (finder f (FP.div (FP.add a b) (some 2)) h n).1 ∧
      (SolverWithInterval.mkWith finder f a b tol h n).b
          = (finder f (FP.div (FP.add a b) (some 2)) h n).2.1) ∧
    ((finder f (FP.div (FP.add a b) (some 2)) h n).2.2 = false →
      (SolverWithInterval.mkWith finder f a b tol h n).a = none ∧
      (SolverWithInterval.mkWith finder f a b tol h n).b = none) := by
  refine ⟨?_, ?_, ?_⟩
  · by_cases hr : (finder f (FP.div (FP.add a b) (some 2)) h n).2.2 = true <;>
      simp [SolverWithInterval.mkWith, hpos, hr]
  · intro hr; constructor <;> simp [SolverWithInterval.mkWith, hpos, hr]
  · intro hr; constructor <;> simp [SolverWithInterval.mkWith, hpos, hr]

theorem mkWith_invalid_calls_finder_witness :
    FP.fgt (FP.mul ((fun (_ : FP) => some (1:ℚ)) (some 0))
        ((fun (_ : FP) => some (1:ℚ)) (some 0))) (some 0) = true ∧
    (SolverWithInterval.mkWith (fun _ _ _ _ => (some 1, some 2, true))
        (fun _ => some (1:ℚ)) (some 0) (some 0) (some 0) (some 1) 3).a = some 1 ∧
    (SolverWithInterval.mkWith (fun _ _ _ _ => (some 1, some 2, true))
        (fun _ => some (1:ℚ)) (some 0) (some 0) (some 0) (some 1) 3).b = some 2 :=
  ⟨by simp [FP.fgt, FP.flt, FP.mul],
   ((mkWith_invalid_calls_finder (fun _ _ _ _ => (some 1, some 2, true))
      (fun _ => some (1:ℚ)) (some 0) (some 0) (some 0) (some 1) 3
      (by simp [FP.fgt, FP.flt, FP.mul])).2.1 rfl).1,
   ((mkWith_invalid_calls_finder (fun _ _ _ _ => (some 1, some 2, true))
      (fun _ => some (1:ℚ)) (some 0) (some 0) (some 0) (some 1) 3
      (by simp [FP.fgt, FP.flt, FP.mul])).2.1 rfl).2⟩

/-- C9: when the supplied interval already satisfies the validity check (the
test `f(a)*f(b) > 0` fails), construction keeps the supplied endpoints, stores
the supplied `f` and `tol`, and never calls the bracket finder (the result is
the same pure record for every finder). -/
theorem mkWith_valid_keeps_endpoints
    (finder : FunType → FP → FP → ℕ → FP × FP × Bool)
    (f : FunType) (a b tol h : FP) (n : ℕ)
    (hvalid : FP.fgt (FP.mul (f a) (f b)) (some 0) = false) :
    SolverWithInterval.mkWith finder f a b tol h n =
      { f := f, tol := tol, a := a, b := b, x1 := FP.div (FP.add a b) (some 2),
        h_interval := h, maxIter := n } :=
  mkWith_not_gt finder f a b tol h n hvalid

theorem mkWith_valid_keeps_endpoints_witness :
    FP.fgt (FP.mul ((fun (_ : FP) => some (0:ℚ)) (some 0))
        ((fun (_ : FP) => some (0:ℚ)) (some 1))) (some 0) = false ∧
    SolverWithInterval.mkWith (fun _ _ _ _ => (some 5, some 6, true))
        (fun _ => some (0:ℚ)) (some 0) (some 1) (some 0) (some 1) 3 =
      { f := fun _ => some (0:ℚ), tol := some 0, a := some 0, b := some 1,
        x1 := FP.div (FP.add (some 0) (some 1)) (some 2),
        h_interval := some 1, maxIter := 3 } :=
  ⟨by simp [FP.fgt, FP.flt, FP.mul],
   mkWith_valid_keeps_endpoints (fun _ _ _ _ => (some 5, some 6, true))
     (fun _ => some (0:ℚ)) (some 0) (some 1) (some 0) (some 1) 3
     (by simp [FP.fgt, FP.flt, FP.mul])⟩

/-- C10: when `f(a)*f(b)` evaluates to NaN, the validity test `f(a)*f(b) > 0`
is false, so the constructor treats the interval as valid: no bracket repair
is attempted (any finder gives the same state) and the endpoints are kept,
with no failure signal. -/
theorem mkWith_nan_product_treated_valid
    (finder : FunType → FP → FP → ℕ → FP × FP × Bool)
    (f : FunType) (a b tol h : FP) (n : ℕ)
    (hnan : FP.mul (f a) (f b) = none) :
    FP.fgt (FP.mul (f a) (f b)) (some 0) = false ∧
    SolverWithInterval.mkWith finder f a b tol h n =
      { f := f, tol := tol, a := a, b := b, x1 := FP.div (FP.add a b) (some 2),
        h_interval := h, maxIter := n } := by
  have hgt : FP.fgt (FP.mul (f a) (f b)) (some 0) = false := by
    rw [hnan]; exact FP.flt_none_right (some 0)
  exact ⟨hgt, mkWith_not_gt finder f a b tol h n hgt⟩

theorem mkWith_nan_product_treated_valid_witness :
    FP.mul ((fun (_ : FP) => (none : FP)) (some 0))
        ((fun (_ : FP) => (none : FP)) (some 1)) = none ∧
    (FP.fgt (FP.mul ((fun (_ : FP) => (none : FP)) (some 0))
        ((fun (_ : FP) => (none : FP)) (some 1))) (some 0) = false ∧
      SolverWithInterval.mkWith (fun _ _ _ _ => (some 5, some 6, true))
          (fun _ => (none : FP)) (some 0) (some 1) (some 0) (some 1) 3 =
        { f := fun _ => (none : FP), tol := some 0, a := some 0, b := some 1,
          x1 := FP.div (FP.add (some 0) (some 1)) (some 2),
          h_interval := some 1, maxIter := 3 }) :=
  ⟨rfl, mkWith_nan_product_treated_valid (fun _ _ _ _ => (some 5, some 6, true))
    (fun _ => (none : FP)) (some 0) (some 1) (some 0) (some 1) 3 rfl⟩

/-- C2 counterexample: for the everywhere-NaN function on the interval
`[0, 1]`, construction keeps the endpoints `(0, 1)`, so neither does
`f(a)*f(b) ≤ 0` hold at the stored endpoints nor are they the NaN sentinel. -/
theorem construct_bracket_invariant_counterexample :
    ¬ (FP.fle (FP.mul ((fun (_ : FP) => (none : FP))
          (SolverWithInterval.construct (fun _ => (none : FP)) (some 0) (some 1)
            (some 0) (some 1) 3).a)
        ((fun (_ : FP) => (none : FP))
          (SolverWithInterval.construct (fun _ => (none : FP)) (some 0) (some 1)
            (some 0) (some 1) 3).b)) (some 0) = true ∨
      ((SolverWithInterval.construct (fun _ => (none : FP)) (some 0) (some 1)
          (some 0) (some 1) 3).a = none ∧
       (SolverWithInterval.construct (fun _ => (none : FP)) (some 0) (some 1)
          (some 0) (some 1) 3).b = none)) := by
  simp [SolverWithInterval.construct, SolverWithInterval.mkWith, FP.fgt, FP.flt,
    FP.fle, FP.mul]

/-- C2 (amended): after construction, either the function values at the stored
endpoints have product `≤ 0`, or both endpoints are the NaN sentinel, or the
product `f(a)*f(b)` of the supplied data was NaN (in which case the supplied
endpoints are kept unexamined). -/
theorem construct_bracket_invariant_or_nan (f : FunType) (a b tol h : FP) (n : ℕ) :
    FP.fle (FP.mul (f (SolverWithInterval.construct f a b tol h n).a)
        (f (SolverWithInterval.construct f a b tol h n).b)) (some 0) = true ∨
    ((SolverWithInterval.construct f a b tol h n).a = none ∧
     (SolverWithInterval.construct f a b tol h n).b = none) ∨
    FP.mul (f a) (f b) = none := by
  by_cases hg : FP.fgt (FP.mul (f a) (f b)) (some 0) = true
  · by_cases hr : (bracketInterval f (FP.div (FP.add a b) (some 2)) h n).2.2 = true
    · left
      have hfound := bracketInterval_found f (FP.div (FP.add a b) (some 2)) h n hr
      simpa [SolverWithInterval.construct, SolverWithInterval.mkWith, hg, hr]
        using hfound
    · right; left
      constructor <;>
        simp [SolverWithInterval.construct, SolverWithInterval.mkWith, hg, hr]
  · have hgf : FP.fgt (FP.mul (f a) (f b)) (some 0) = false := by
      cases hgb : FP.fgt (FP.mul (f a) (f b)) (some 0)
      · rfl
      · exact absurd hgb hg
    rcases hm : FP.mul (f a) (f b) with _ | q
    · right; right; rfl
    · left
      have hq : q ≤ 0 := by
        rw [hm] at hgf
        simpa [FP.fgt, FP.flt, not_lt] using hgf
      have hS := mkWith_not_gt bracketInterval f a b tol h n hgf
      simp only [SolverWithInterval.construct, hS]
      simpa [hm, FP.fle] using hq

/-- Machine epsilon of the double type, as used by the Brent tolerance
threshold from the specification. -/
def machEps : ℚ := 1 / 2 ^ 52

/-- `RegulaFalsi` fields, as in the header. -/
structure RegulaFalsi extends SolverWithInterval where
  tola : FP

/-- Constructor of `RegulaFalsi`, transcribed from the header: it forwards to
the `SolverWithInterval` constructor and stores `tola`. -/
def RegulaFalsi.construct (f : FunType) (a b tol tola h_interval : FP)
    (maxIter : ℕ) : RegulaFalsi :=
  { SolverWithInterval.construct f a b tol h_interval maxIter with tola := tola }

/-- `Bisection` fields, as in the header (no fields beyond the base). -/
structure Bisection extends SolverWithInterval

/-- Constructor of `Bisection`, transcribed from the header. -/
def Bisection.construct (f : FunType) (a b tol h_interval : FP)
    (maxIter : ℕ) : Bisection :=
  { SolverWithInterval.construct f a b tol h_interval maxIter with }

/-- `Secant` fields, as in the header. -/
structure Secant extends SolverWithInterval where
  tola : FP
  maxIt : ℕ

/-- Constructor of `Secant`, transcribed from the header. -/
def Secant.construct (f : FunType) (a b tol tola : FP) (maxIt : ℕ)
    (h_interval : FP) (maxIter : ℕ) : Secant :=
  { SolverWithInterval.construct f a b tol h_interval maxIter with
      tola := tola, maxIt := maxIt }

/-- `Brent` fields, as in the header. -/
structure Brent extends SolverWithInterval where
  maxIt : ℕ

/-- Constructor of `Brent`, transcribed from the header. -/
def Brent.construct (f : FunType) (a b tol : FP) (maxIt : ℕ)
    (h_interval : FP) (maxIter : ℕ) : Brent :=
  { SolverWithInterval.construct f a b tol h_interval maxIter with maxIt := maxIt }

/-- `Newton` fields, as in the header. -/
structure Newton extends SolverBase where
  df : FunType
  x0 : FP
  tola : FP
  maxIt : ℕ

/-- Constructor of `Newton`, transcribed from the header. -/
def Newton.construct (f df : FunType) (x0 tol tola : FP) (maxIt : ℕ) : Newton :=
  { f := f, tol := tol, df := df, x0 := x0, tola := tola, maxIt := maxIt }

/-- `QuasiNewton` fields, as in the header. -/
structure QuasiNewton extends Newton where
  h : FP

/-- Constructor of `QuasiNewton`, transcribed from the header: it forwards to
the `Newton` constructor with the synthesized centered-difference derivative
`fun x => (f(x + h) - f(x - h)) / (2 * h)` and stores `h`.  No check on `h`
is performed. -/
def QuasiNewton.construct (f : FunType) (a h tol tola : FP) (maxIt : ℕ) :
    QuasiNewton :=
  { Newton.construct f
      (fun x => FP.div (FP.sub (f (FP.add x h)) (f (FP.sub x h)))
        (FP.mul (some 2) h))
      a tol tola maxIt with h := h }

/-- One bisection step.  Modelled from the spec: compute the midpoint `c` and
replace the endpoint whose function value shares the sign of `f(c)`. -/
def bisectionStep (f : FunType) (a b : FP) : FP × FP :=
  let c := FP.div (FP.add a b) (some 2)
  if FP.fle (FP.mul (f a) (f c)) (some 0) then (a, c) else (c, b)

/-- Modelled from the spec: the iteration loop of `Bisection::solve` (the body
is not among the supplied sources).  Returns the estimate, the convergence
flag, and the number of refining iterations performed. -/
def bisectionLoop (f : FunType) (tol a b : FP) : ℕ → FP × Bool × ℕ
  | 0 => (FP.div (FP.add a b) (some 2), false, 0)
  | fuel + 1 =>
    if FP.flt (FP.fabs (FP.sub b a)) tol then
      (FP.div (FP.add a b) (some 2), true, 0)
    else
      let p := bisectionStep f a b
      let r := bisectionLoop f tol p.1 p.2 fuel
      (r.1, r.2.1, r.2.2 + 1)

/-- Modelled from the spec: `Bisection::solve`.  The NaN sentinel left by a
failed bracket repair is checked before iterating. -/
def Bisection.solve (s : Bisection) : FP × Bool × ℕ :=
  if s.a.isNone && s.b.isNone then (none, false, 0)
  else bisectionLoop s.f s.tol s.a s.b s.maxIter

/-- Modelled from the spec: the iteration loop of `RegulaFalsi::solve`.  The
trial point is the root of the chord through `(a, f a)` and `(b, f b)`; the
endpoint whose function value shares the sign of `f(c)` is replaced by `c`. -/
def regulaFalsiLoop (f : FunType) (tola a b est : FP) : ℕ → FP × Bool × ℕ
  | 0 => (est, false, 0)
  | fuel + 1 =>
    let c := FP.div (FP.sub (FP.mul a (f b)) (FP.mul b (f a)))
      (FP.sub (f b) (f a))
    if FP.flt (FP.fabs (f c)) tola then (c, true, 1)
    else
      let next := if FP.fle (FP.mul (f a) (f c)) (some 0) then (a, c) else (c, b)
      let r := regulaFalsiLoop f tola next.1 next.2 c fuel
      (r.1, r.2.1, r.2.2 + 1)

/-- Modelled from the spec: `RegulaFalsi::solve`, with the sentinel check
before the loop and the midpoint as initial estimate. -/
def RegulaFalsi.solve (s : RegulaFalsi) : FP × Bool × ℕ :=
  if s.a.isNone && s.b.isNone then (none, false, 0)
  else regulaFalsiLoop s.f s.tola s.a s.b
    (FP.div (FP.add s.a s.b) (some 2)) s.maxIter

/-- Modelled from the spec: the iteration loop of `Secant::solve`.  A
vanishing difference of the two most recent function values is detected and
surfaced as non-convergence before the division. -/
def secantLoop (f : FunType) (tol tola xprev xcur est : FP) : ℕ → FP × Bool × ℕ
  | 0 => (est, false, 0)
  | fuel + 1 =>
    if FP.feq (FP.sub (f xcur) (f xprev)) (some 0) then (xcur, false, 0)
    else
      let xnew := FP.sub xcur (FP.div (FP.mul (f xcur) (FP.sub xcur xprev))
        (FP.sub (f xcur) (f xprev)))
      if FP.flt (FP.fabs (f xnew)) tola || FP.flt (FP.fabs (FP.sub xnew xcur)) tol
      then (xnew, true, 1)
      else
        let r := secantLoop f tol tola xcur xnew xnew fuel
        (r.1, r.2.1, r.2.2 + 1)

/-- Modelled from the spec: `Secant::solve`; the two initial iterates are the
(possibly repaired) bracket endpoints. -/
def Secant.solve (s : Secant) : FP × Bool × ℕ :=
  if s.a.isNone && s.b.isNone then (none, false, 0)
  else secantLoop s.f s.tol s.tola s.a s.b
    (FP.div (FP.add s.a s.b) (some 2)) s.maxIt

/-- The per-iteration state of Brent's method: `a` is the previous best
iterate, `b` the current best estimate, `c` the other bracket end, `d` the
size of the previous step and `e` the size of the step before it. -/
structure BrentState where
  a : FP
  b : FP
  c : FP
  d : FP
  e : FP

/-- Secant (linear interpolation) trial point through `x` and `y`. -/
def secantPoint (f : FunType) (x y : FP) : FP :=
  FP.sub y (FP.div (FP.mul (f y) (FP.sub y x)) (FP.sub (f y) (f x)))

/-- Inverse quadratic interpolation through `a`, `b`, `c`. -/
def iqiPoint (f : FunType) (a b c : FP) : FP :=
  let r := FP.div (f b) (f c)
  let s := FP.div (f b) (f a)
  let t := FP.div (f a) (f c)
  let p := FP.mul s (FP.sub (FP.mul t (FP.mul (FP.sub r t) (FP.sub c b)))
    (FP.mul (FP.sub r (some 1)) (FP.sub b a)))
  let q := FP.mul (FP.sub t (some 1))
    (FP.mul (FP.sub r (some 1)) (FP.sub s (some 1)))
  FP.add b (FP.div p q)

/-- Strict membership of `x` in the open interval spanned by `lo` and `hi`
(in either order); false whenever any operand is NaN. -/
def strictlyBetween (x lo hi : FP) : Bool :=
  (FP.flt lo x && FP.flt x hi) || (FP.flt hi x && FP.flt x lo)

/-- Modelled from the spec: the interpolated trial point of one Brent step.
Inverse quadratic interpolation is used when the three function values are
numerically distinct, otherwise the secant point; the interpolated point is
accepted only if it lies strictly inside the current bracket `(b, c)` and its
step is smaller than the step taken two iterations ago, otherwise the step
falls back to bisection. -/
def brentInterp (f : FunType) (st : BrentState) : FP :=
  if !FP.feq (f st.a) (f st.b) && !FP.feq (f st.b) (f st.c) &&
      !FP.feq (f st.a) (f st.c)
  then iqiPoint f st.a st.b st.c
  else secantPoint f st.a st.b

def brentCandidate (f : FunType) (st : BrentState) : FP :=
  if strictlyBetween (brentInterp f st) st.b st.c &&
      FP.flt (FP.fabs (FP.sub (brentInterp f st) st.b)) (FP.fabs st.e)
  then brentInterp f st
  else FP.div (FP.add st.b st.c) (some 2)

/-- Modelled from the spec: the bookkeeping after evaluating `f` at the
accepted point `m`: keep the sub-bracket showing the sign change, let the new
best estimate be the end with the smaller `|f|`, and shift the step sizes. -/
def brentUpdate (f : FunType) (st : BrentState) (m : FP) : BrentState :=
  let pair := if FP.fle (FP.mul (f st.b) (f m)) (some 0) then (st.b, m)
    else (m, st.c)
  let bNew := if FP.fle (FP.fabs (f pair.1)) (FP.fabs (f pair.2)) then pair.1
    else pair.2
  let cNew := if FP.fle (FP.fabs (f pair.1)) (FP.fabs (f pair.2)) then pair.2
    else pair.1
  { a := st.b, b := bNew, c := cNew, d := FP.fabs (FP.sub m st.b), e := st.d }

/-- One full iteration of Brent's method. -/
def brentStep (f : FunType) (st : BrentState) : BrentState :=
  brentUpdate f st (brentCandidate f st)

/-- The Brent convergence threshold `delta = 2*eps*|b| + tol/2`. -/
def brentDelta (tol b : FP) : FP :=
  FP.add (FP.mul (some (2 * machEps)) (FP.fabs b)) (FP.div tol (some 2))

/-- Modelled from the spec: the iteration loop of `Brent::solve`.  Each pass
first tests `f(b) == 0` or bracket width below `delta` and returns `b` on
convergence; otherwise it performs one `brentStep`. -/
def brentLoop (f : FunType) (tol : FP) (st : BrentState) (est : FP) :
    ℕ → FP × Bool × ℕ
  | 0 => (est, false, 0)
  | fuel + 1 =>
    if FP.feq (f st.b) (some 0) ||
        FP.flt (FP.fabs (FP.sub st.c st.b)) (brentDelta tol st.b)
    then (st.b, true, 0)
    else
      let st2 := brentStep f st
      let r := brentLoop f tol st2 st2.b fuel
      (r.1, r.2.1, r.2.2 + 1)

/-- Modelled from the spec: `Brent::solve`.  After the sentinel check, the
endpoint with the smaller `|f|` becomes the initial best estimate `b` and the
other one plays both `a` (previous best) and `c` (other bracket end); the
estimate reported when the budget is exhausted before any iteration is the
midpoint of the supplied bracket. -/
def Brent.solve (s : Brent) : FP × Bool × ℕ :=
  if s.a.isNone && s.b.isNone then (none, false, 0)
  else
    let b0 := if FP.fle (FP.fabs (s.f s.b)) (FP.fabs (s.f s.a)) then s.b else s.a
    let c0 := if FP.fle (FP.fabs (s.f s.b)) (FP.fabs (s.f s.a)) then s.a else s.b
    brentLoop s.f s.tol
      { a := c0, b := b0, c := c0, d := FP.fabs (FP.sub s.b s.a),
        e := FP.fabs (FP.sub s.b s.a) }
      (FP.div (FP.add s.a s.b) (some 2)) s.maxIt

/-- Modelled from the spec: the iteration loop of `Newton::solve`.  A
numerically zero derivative at the current iterate is detected before the
division and reported as non-convergence. -/
def newtonLoop (f df : FunType) (tol tola x : FP) : ℕ → FP × Bool × ℕ
  | 0 => (x, false, 0)
  | fuel + 1 =>
    if FP.feq (df x) (some 0) then (x, false, 0)
    else
      let xnew := FP.sub x (FP.div (f x) (df x))
      if FP.flt (FP.fabs (f xnew)) tola || FP.flt (FP.fabs (FP.sub xnew x)) tol
      then (xnew, true, 1)
      else
        let r := newtonLoop f df tol tola xnew fuel
        (r.1, r.2.1, r.2.2 + 1)

/-- Modelled from the spec: `Newton::solve`, iterating from `x0`. -/
def Newton.solve (s : Newton) : FP × Bool × ℕ :=
  newtonLoop s.f s.df s.tol s.tola s.x0 s.maxIt

/-- `QuasiNewton` inherits `solve` unchanged from `Newton` (the header adds no
override). -/
def QuasiNewton.solve (s : QuasiNewton) : FP × Bool × ℕ :=
  Newton.solve s.toNewton

/-- C3: when construction ended with the NaN sentinel in both endpoints, every
interval-based solver's `solve()` returns NaN with a non-converged flag and an
iteration count of zero: the sentinel check precedes the loop, so no refining
iteration runs and `f` is never evaluated. -/
theorem solve_nan_sentinel_short_circuits
    (sb : Bisection) (sr : RegulaFalsi) (ss : Secant) (sbr : Brent)
    (hba : sb.a = none) (hbb : sb.b = none)
    (hra : sr.a = none) (hrb : sr.b = none)
    (hsa : ss.a = none) (hsb : ss.b = none)
    (hta : sbr.a = none) (htb : sbr.b = none) :
    Bisection.solve sb = (none, false, 0) ∧
    RegulaFalsi.solve sr = (none, false, 0) ∧
    Secant.solve ss = (none, false, 0) ∧
    Brent.solve sbr = (none, false, 0) := by
  refine ⟨?_, ?_, ?_, ?_⟩
  · simp [Bisection.solve, hba, hbb]
  · simp [RegulaFalsi.solve, hra, hrb]
  · simp [Secant.solve, hsa, hsb]
  · simp [Brent.solve, hta, htb]

theorem solve_nan_sentinel_short_circuits_witness :
    ({ f := fun _ => some (0:ℚ), tol := some 0, a := none, b := none,
        x1 := some 0, h_interval := some 0, maxIter := 3 } : Bisection).a = none ∧
    Bisection.solve
      { f := fun _ => some (0:ℚ), tol := some 0, a := none, b := none,
        x1 := some 0, h_interval := some 0, maxIter := 3 } = (none, false, 0) ∧
    RegulaFalsi.solve
      { f := fun _ => some (0:ℚ), tol := some 0, a := none, b := none,
        x1 := some 0, h_interval := some 0, maxIter := 3, tola := some 0 }
      = (none, false, 0) ∧
    Secant.solve
      { f := fun _ => some (0:ℚ), tol := some 0, a := none, b := none,
        x1 := some 0, h_interval := some 0, maxIter := 3, tola := some 0,
        maxIt := 4 } = (none, false, 0) ∧
    Brent.solve
      { f := fun _ => some (0:ℚ), tol := some 0, a := none, b := none,
        x1 := some 0, h_interval := some 0, maxIter := 3, maxIt := 4 }
      = (none, false, 0) := by
  have H := solve_nan_sentinel_short_circuits
    { f := fun _ => some (0:ℚ), tol := some 0, a := none, b := none,
      x1 := some 0, h_interval := some 0, maxIter := 3 }
    { f := fun _ => some (0:ℚ), tol := some 0, a := none, b := none,
      x1 := some 0, h_interval := some 0, maxIter := 3, tola := some 0 }
    { f := fun _ => some (0:ℚ), tol := some 0, a := none, b := none,
      x1 := some 0, h_interval := some 0, maxIter := 3, tola := some 0,
      maxIt := 4 }
    { f := fun _ => some (0:ℚ), tol := some 0, a := none, b := none,
      x1 := some 0, h_interval := some 0, maxIter := 3, maxIt := 4 }
    rfl rfl rfl rfl rfl rfl rfl rfl
  exact ⟨rfl, H.1, H.2.1, H.2.2.1, H.2.2.2⟩

/-- C8: with an iteration budget of zero, every solver performs no refining
iteration (count 0) and returns the initial estimate — the bracket midpoint
for the interval-based solvers, `x0` for the Newton family — together with a
non-converged flag. -/
theorem solve_zero_budget_returns_initial
    (f df : FunType) (a b x1 h tol tola x0 : FP) (n : ℕ) :
    Bisection.solve
        { f := f, tol := tol, a := a, b := b, x1 := x1, h_interval := h,
          maxIter := 0 } = (FP.div (FP.add a b) (some 2), false, 0) ∧
    RegulaFalsi.solve
        { f := f, tol := tol, a := a, b := b, x1 := x1, h_interval := h,
          maxIter := 0, tola := tola } = (FP.div (FP.add a b) (some 2), false, 0) ∧
    Secant.solve
        { f := f, tol := tol, a := a, b := b, x1 := x1, h_interval := h,
          maxIter := n, tola := tola, maxIt := 0 }
        = (FP.div (FP.add a b) (some 2), false, 0) ∧
    Brent.solve
        { f := f, tol := tol, a := a, b := b, x1 := x1, h_interval := h,
          maxIter := n, maxIt := 0 } = (FP.div (FP.add a b) (some 2), false, 0) ∧
    Newton.solve
        { f := f, tol := tol, df := df, x0 := x0, tola := tola, maxIt := 0 }
        = (x0, false, 0) ∧
    QuasiNewton.solve
        { f := f, tol := tol, df := df, x0 := x0, tola := tola, maxIt := 0,
          h := h } = (x0, false, 0) := by
  refine ⟨?_, ?_, ?_, ?_, ?_, ?_⟩
  · rcases a with _ | qa <;> rcases b with _ | qb <;>
      simp [Bisection.solve, bisectionLoop, FP.add, FP.div]
  · rcases a with _ | qa <;> rcases b with _ | qb <;>
      simp [RegulaFalsi.solve, regulaFalsiLoop, FP.add, FP.div]
  · rcases a with _ | qa <;> rcases b with _ | qb <;>
      simp [Secant.solve, secantLoop, FP.add, FP.div]
  · rcases a with _ | qa <;> rcases b with _ | qb <;>
      simp [Brent.solve, brentLoop, FP.add, FP.div]
  · simp [Newton.solve, newtonLoop]
  · simp [QuasiNewton.solve, Newton.solve, newtonLoop]

/-- C6: the derivative stored by the QuasiNewton constructor is exactly the
centered finite difference `(f(x+h) - f(x-h)) / (2*h)` of the supplied `f`
with the supplied step `h`, the rest of the state is exactly what the Newton
constructor builds, and `solve` is inherited from Newton unchanged. -/
theorem quasiNewton_df_centered_difference (f : FunType) (a h tol tola : FP)
    (n : ℕ) :
    (QuasiNewton.construct f a h tol tola n).df
        = (fun x => FP.div (FP.sub (f (FP.add x h)) (f (FP.sub x h)))
            (FP.mul (some 2) h)) ∧
    (QuasiNewton.construct f a h tol tola n).toNewton
        = Newton.construct f
            (fun x => FP.div (FP.sub (f (FP.add x h)) (f (FP.sub x h)))
              (FP.mul (some 2) h)) a tol tola n ∧
    QuasiNewton.solve (QuasiNewton.construct f a h tol tola n)
        = Newton.solve (QuasiNewton.construct f a h tol tola n).toNewton :=
  ⟨rfl, rfl, rfl⟩

/-- C5: the QuasiNewton constructor in the header performs no check on `h`.
With `h = 0` it happily builds a solver whose synthesized derivative divides
by zero: here, with `f` the identity and `h = 0`, the stored derivative
evaluates to `(f(5) - f(5)) / 0 = 0/0`, i.e. NaN, at the point `5`. -/
theorem quasiNewton_zero_h_not_rejected :
    (QuasiNewton.construct (fun x => x) (some 1) (some 0) (some (1/1000))
        (some (1/1000)) 10).df (some 5) = none := by
  simp [QuasiNewton.construct, Newton.construct, FP.add, FP.sub, FP.div, FP.mul]

/-- C7: if the derivative evaluates to a numerically zero value at the current
iterate, the Newton loop (and hence `Newton::solve` at its starting point)
stops before the division and reports non-convergence, returning the iterate
itself with the flag down instead of propagating an infinity or NaN. -/
theorem newton_zero_derivative_reports_failure
    (f df : FunType) (tol tola x : FP) (fuel : ℕ) (s : Newton)
    (hdf0 : df x = some 0) (hfuel : fuel ≠ 0)
    (hs : s.df s.x0 = some 0) (hn : s.maxIt ≠ 0) :
    newtonLoop f df tol tola x fuel = (x, false, 0) ∧
    Newton.solve s = (s.x0, false, 0) := by
  constructor
  · cases fuel with
    | zero => exact absurd rfl hfuel
    | succ m => simp [newtonLoop, hdf0, FP.feq]
  · rcases Nat.exists_eq_succ_of_ne_zero hn with ⟨m, hm⟩
    simp [Newton.solve, hm, newtonLoop, hs, FP.feq]

theorem newton_zero_derivative_reports_failure_witness :
    (fun (_ : FP) => some (0:ℚ)) (some 1) = some 0 ∧ (2 : ℕ) ≠ 0 ∧
    (newtonLoop (fun _ => some (1:ℚ)) (fun _ => some (0:ℚ)) (some 0) (some 0)
        (some 1) 2 = (some 1, false, 0) ∧
      Newton.solve
        { f := fun _ => some (1:ℚ), tol := some 0, df := fun _ => some (0:ℚ),
          x0 := some 1, tola := some 0, maxIt := 2 } = (some 1, false, 0)) :=
  ⟨rfl, by decide,
   newton_zero_derivative_reports_failure (fun _ => some (1:ℚ))
     (fun _ => some (0:ℚ)) (some 0) (some 0) (some 1) 2
     { f := fun _ => some (1:ℚ), tol := some 0, df := fun _ => some (0:ℚ),
       x0 := some 1, tola := some 0, maxIt := 2 }
     rfl (by decide) rfl (by decide)⟩

/-- A product comparing `≤ 0` in FP semantics forces both factors ordinary. -/
theorem FP.fle_mul_zero {u v : FP}
    (h : FP.fle (FP.mul u v) (some 0) = true) :
    ∃ p q, u = some p ∧ v = some q ∧ p * q ≤ 0 := by
  rcases u with _ | p
  · simp [FP.mul, FP.fle] at h
  · rcases v with _ | q
    · simp [FP.mul, FP.fle] at h
    · exact ⟨p, q, rfl, rfl, by simpa [FP.mul, FP.fle] using h⟩

/-- FP multiplication is commutative. -/
theorem FP.mul_comm' (x y : FP) : FP.mul x y = FP.mul y x := by
  rcases x with _ | p <;> rcases y with _ | q <;> simp [FP.mul, mul_comm]

/-- Transfer of the sign-change property across a midpoint-like split: if
`fa*fb ≤ 0` and `fa*fc > 0` then `fc*fb ≤ 0`. -/
theorem sign_transfer {fa fb fc : ℚ} (h1 : fa * fb ≤ 0) (h2 : 0 < fa * fc) :
    fc * fb ≤ 0 := by
  rcases lt_trichotomy fa 0 with hfa | hfa | hfa
  · have hfc : fc < 0 := by nlinarith
    have hfb : 0 ≤ fb := by nlinarith
    nlinarith
  · rw [hfa, zero_mul] at h2; exact absurd h2 (lt_irrefl 0)
  · have hfc : 0 < fc := by nlinarith
    have hfb : fb ≤ 0 := by nlinarith
    nlinarith

/-- Two points of a closed interval are no farther apart than its width. -/
theorem abs_sub_le_of_bounds {lo hi x y : ℚ} (hx1 : lo ≤ x) (hx2 : x ≤ hi)
    (hy1 : lo ≤ y) (hy2 : y ≤ hi) : |x - y| ≤ hi - lo := by
  rw [abs_sub_le_iff]; constructor <;> linarith

/-- Two points between `qb` and `qc` are no farther apart than `|qc - qb|`. -/
theorem width_bound {qb qc x y : ℚ} (hx1 : min qb qc ≤ x) (hx2 : x ≤ max qb qc)
    (hy1 : min qb qc ≤ y) (hy2 : y ≤ max qb qc) : |x - y| ≤ |qc - qb| := by
  calc |x - y| ≤ max qb qc - min qb qc := abs_sub_le_of_bounds hx1 hx2 hy1 hy2
  _ = |qc - qb| := max_sub_min_eq_abs qb qc

/-- The midpoint lies between the endpoints. -/
theorem mid_mem {qa qb : ℚ} :
    min qa qb ≤ (qa + qb) / 2 ∧ (qa + qb) / 2 ≤ max qa qb := by
  constructor
  · rcases le_total qa qb with h | h
    · rw [min_eq_left h]; linarith
    · rw [min_eq_right h]; linarith
  · rcases le_total qa qb with h | h
    · rw [max_eq_right h]; linarith
    · rw [max_eq_left h]; linarith

/-- The accepted Brent trial point is either the bisection midpoint or a point
strictly inside the current bracket. -/
theorem brentCandidate_spec (f : FunType) (st : BrentState) :
    brentCandidate f st = FP.div (FP.add st.b st.c) (some 2) ∨
      strictlyBetween (brentCandidate f st) st.b st.c = true := by
  by_cases hacc : (strictlyBetween (brentInterp f st) st.b st.c &&
      FP.flt (FP.fabs (FP.sub (brentInterp f st) st.b)) (FP.fabs st.e)) = true
  · right
    have hsb := ((Bool.and_eq_true _ _).mp hacc).1
    simpa [brentCandidate, hacc] using hsb
  · left
    simp only [brentCandidate, hacc, Bool.false_eq_true, if_false]

/-- From a strict FP comparison both operands are ordinary and ordered. -/
theorem FP.flt_some_left {q : ℚ} {x : FP} (h : FP.flt (some q) x = true) :
    ∃ p, x = some p ∧ q < p := by
  rcases x with _ | p
  · simp [FP.flt] at h
  · exact ⟨p, rfl, by simpa [FP.flt] using h⟩

theorem FP.flt_some_some {a b : ℚ} (h : FP.flt (some a) (some b) = true) :
    a < b := by simpa [FP.flt] using h

/-- On an ordinary bracket `(b, c)`, the Brent trial point is an ordinary
value lying between the bracket ends. -/
theorem brentCandidate_between (f : FunType) (st : BrentState) (qb qc : ℚ)
    (hb : st.b = some qb) (hc : st.c = some qc) :
    ∃ qm, brentCandidate f st = some qm ∧
      min qb qc ≤ qm ∧ qm ≤ max qb qc := by
  rcases brentCandidate_spec f st with hmid | hstrict
  · refine ⟨(qb + qc) / 2, ?_, mid_mem.1, mid_mem.2⟩
    rw [hmid, hb, hc]
    exact FP.div_two_some qb qc
  · rw [hb, hc] at hstrict
    rcases (Bool.or_eq_true _ _).mp hstrict with hband | hband
    · obtain ⟨h1, h2⟩ := (Bool.and_eq_true _ _).mp hband
      obtain ⟨qm, hqm, hlt1⟩ := FP.flt_some_left h1
      rw [hqm] at h2
      have hlt2 := FP.flt_some_some h2
      refine ⟨qm, hqm, le_trans (min_le_left _ _) hlt1.le, ?_⟩
      exact le_trans hlt2.le (le_max_right _ _)
    · obtain ⟨h1, h2⟩ := (Bool.and_eq_true _ _).mp hband
      obtain ⟨qm, hqm, hlt1⟩ := FP.flt_some_left h1
      rw [hqm] at h2
      have hlt2 := FP.flt_some_some h2
      refine ⟨qm, hqm, le_trans (min_le_right _ _) hlt1.le, ?_⟩
      exact le_trans hlt2.le (le_max_left _ _)

/-- A valid bracket for the opposite-sign invariant: both ends are ordinary
values and the function values at the ends have product `≤ 0`. -/
def bracketOK (f : FunType) (x y : FP) : Prop :=
  (∃ p, x = some p) ∧ (∃ q, y = some q) ∧
    FP.fle (FP.mul (f x) (f y)) (some 0) = true

/-- One bisection step keeps a valid bracket valid and never widens it. -/
theorem bisectionStep_preserves (f : FunType)
    (htot : ∀ q : ℚ, (f (some q)).isSome = true) (qa qb : ℚ)
    (hab : FP.fle (FP.mul (f (some qa)) (f (some qb))) (some 0) = true) :
    bracketOK f (bisectionStep f (some qa) (some qb)).1
      (bisectionStep f (some qa) (some qb)).2 ∧
    FP.fle (FP.fabs (FP.sub (bisectionStep f (some qa) (some qb)).2
        (bisectionStep f (some qa) (some qb)).1))
      (FP.fabs (FP.sub (some qb) (some qa))) = true := by
  obtain ⟨fa, fb, hfa, hfb, hprod⟩ := FP.fle_mul_zero hab
  obtain ⟨fc, hfc⟩ := Option.isSome_iff_exists.mp (htot ((qa + qb) / 2))
  have hmid : FP.div (FP.add (some qa) (some qb)) (some 2)
      = some ((qa + qb) / 2) := FP.div_two_some qa qb
  by_cases hcase :
      FP.fle (FP.mul (f (some qa)) (f (some ((qa + qb) / 2)))) (some 0) = true
  · constructor
    · have hpair : bisectionStep f (some qa) (some qb)
          = (some qa, some ((qa + qb) / 2)) := by
        simp [bisectionStep, hmid, hcase]
      rw [hpair]
      exact ⟨⟨qa, rfl⟩, ⟨(qa + qb) / 2, rfl⟩, hcase⟩
    · have hpair : bisectionStep f (some qa) (some qb)
          = (some qa, some ((qa + qb) / 2)) := by
        simp [bisectionStep, hmid, hcase]
      rw [hpair]
      simp only [FP.sub, FP.fabs, FP.fle, decide_eq_true_eq]
      exact width_bound mid_mem.1 mid_mem.2 (min_le_left _ _) (le_max_left _ _)
  · have hpair : bisectionStep f (some qa) (some qb)
        = (some ((qa + qb) / 2), some qb) := by
      simp [bisectionStep, hmid, hcase]
    have hpos : 0 < fa * fc := by
      rw [hfa, hfc] at hcase
      simpa [FP.mul, FP.fle, not_le] using hcase
    have htrans : fc * fb ≤ 0 := sign_transfer hprod hpos
    constructor
    · rw [hpair]
      refine ⟨⟨(qa + qb) / 2, rfl⟩, ⟨qb, rfl⟩, ?_⟩
      rw [hfc, hfb]
      simpa [FP.mul, FP.fle] using htrans
    · rw [hpair]
      simp only [FP.sub, FP.fabs, FP.fle, decide_eq_true_eq]
      exact width_bound (min_le_right _ _) (le_max_right _ _) mid_mem.1 mid_mem.2

/-- One Brent step keeps a valid bracket `(b, c)` valid and never widens it. -/
theorem brentStep_preserves (f : FunType)
    (htot : ∀ q : ℚ, (f (some q)).isSome = true) (st : BrentState)
    (qb qc : ℚ) (hb : st.b = some qb) (hc : st.c = some qc)
    (hst : FP.fle (FP.mul (f st.b) (f st.c)) (some 0) = true) :
    bracketOK f (brentStep f st).b (brentStep f st).c ∧
    FP.fle (FP.fabs (FP.sub (brentStep f st).c (brentStep f st).b))
      (FP.fabs (FP.sub st.c st.b)) = true := by
  obtain ⟨qm, hqm, hmlo, hmhi⟩ := brentCandidate_between f st qb qc hb hc
  have hst' := hst
  rw [hb, hc] at hst'
  obtain ⟨fb, fc, hfb, hfc, hprod⟩ := FP.fle_mul_zero hst'
  obtain ⟨fm, hfm⟩ := Option.isSome_iff_exists.mp (htot qm)
  have hstep : brentStep f st = brentUpdate f st (some qm) := by
    unfold brentStep; rw [hqm]
  rw [hstep]
  by_cases hsign : FP.fle (FP.mul (f st.b) (f (some qm))) (some 0) = true
  · by_cases hbest : FP.fle (FP.fabs (f st.b)) (FP.fabs (f (some qm))) = true
    · have hbc : (brentUpdate f st (some qm)).b = st.b ∧
          (brentUpdate f st (some qm)).c = some qm := by
        constructor <;> simp [brentUpdate, hsign, hbest]
      rw [hbc.1, hbc.2]
      refine ⟨⟨⟨qb, hb⟩, ⟨qm, rfl⟩, hsign⟩, ?_⟩
      rw [hb, hc]
      simp only [FP.sub, FP.fabs, FP.fle, decide_eq_true_eq]
      exact width_bound hmlo hmhi (min_le_left _ _) (le_max_left _ _)
    · have hbc : (brentUpdate f st (some qm)).b = some qm ∧
          (brentUpdate f st (some qm)).c = st.b := by
        constructor <;> simp [brentUpdate, hsign, hbest]
      rw [hbc.1, hbc.2]
      refine ⟨⟨⟨qm, rfl⟩, ⟨qb, hb⟩, ?_⟩, ?_⟩
      · rw [FP.mul_comm']; exact hsign
      · rw [hb, hc]
        simp only [FP.sub, FP.fabs, FP.fle, decide_eq_true_eq]
        exact width_bound (min_le_left _ _) (le_max_left _ _) hmlo hmhi
  · have hpos : 0 < fb * fm := by
      rw [hb, hfb, hfm] at hsign
      simpa [FP.mul, FP.fle, not_le] using hsign
    have htrans : fm * fc ≤ 0 := sign_transfer hprod hpos
    have hokc : FP.fle (FP.mul (f (some qm)) (f st.c)) (some 0) = true := by
      rw [hc, hfm, hfc]
      simpa [FP.mul, FP.fle] using htrans
    by_cases hbest : FP.fle (FP.fabs (f (some qm))) (FP.fabs (f st.c)) = true
    · have hbc : (brentUpdate f st (some qm)).b = some qm ∧
          (brentUpdate f st (some qm)).c = st.c := by
        constructor <;> simp [brentUpdate, hsign, hbest]
      rw [hbc.1, hbc.2]
      refine ⟨⟨⟨qm, rfl⟩, ⟨qc, hc⟩, hokc⟩, ?_⟩
      rw [hb, hc]
      simp only [FP.sub, FP.fabs, FP.fle, decide_eq_true_eq]
      exact width_bound (min_le_right _ _) (le_max_right _ _) hmlo hmhi
    · have hbc : (brentUpdate f st (some qm)).b = st.c ∧
          (brentUpdate f st (some qm)).c = some qm := by
        constructor <;> simp [brentUpdate, hsign, hbest]
      rw [hbc.1, hbc.2]
      refine ⟨⟨⟨qc, hc⟩, ⟨qm, rfl⟩, ?_⟩, ?_⟩
      · rw [FP.mul_comm']; exact hokc
      · rw [hb, hc]
        simp only [FP.sub, FP.fabs, FP.fle, decide_eq_true_eq]
        exact width_bound hmlo hmhi (min_le_right _ _) (le_max_right _ _)

/-- C4: for Bisection and Brent, starting from a valid bracket, one iteration
of the solve loop preserves the opposite-sign property of the maintained pair
and never increases the bracket width. -/
theorem bisection_brent_bracket_preserved (f : FunType)
    (htot : ∀ q : ℚ, (f (some q)).isSome = true)
    (a b : FP) (st : BrentState)
    (hab : bracketOK f a b) (hst : bracketOK f st.b st.c) :
    (bracketOK f (bisectionStep f a b).1 (bisectionStep f a b).2 ∧
      FP.fle (FP.fabs (FP.sub (bisectionStep f a b).2 (bisectionStep f a b).1))
        (FP.fabs (FP.sub b a)) = true) ∧
    (bracketOK f (brentStep f st).b (brentStep f st).c ∧
      FP.fle (FP.fabs (FP.sub (brentStep f st).c (brentStep f st).b))
        (FP.fabs (FP.sub st.c st.b)) = true) := by
  obtain ⟨⟨qa, ha⟩, ⟨qb, hbb⟩, habp⟩ := hab
  obtain ⟨⟨qb2, hb2⟩, ⟨qc2, hc2⟩, hstp⟩ := hst
  subst ha; subst hbb
  exact ⟨bisectionStep_preserves f htot qa qb habp,
    brentStep_preserves f htot st qb2 qc2 hb2 hc2 hstp⟩

theorem bisection_brent_bracket_preserved_witness :
    bracketOK (fun _ => some (0:ℚ)) (some 0) (some 1) ∧
    bracketOK (fun _ => some (0:ℚ))
      ({ a := some 1, b := some 0, c := some 1, d := some 1, e := some 1 }
        : BrentState).b
      ({ a := some 1, b := some 0, c := some 1, d := some 1, e := some 1 }
        : BrentState).c ∧
    ((bracketOK (fun _ => some (0:ℚ))
        (bisectionStep (fun _ => some (0:ℚ)) (some 0) (some 1)).1
        (bisectionStep (fun _ => some (0:ℚ)) (some 0) (some 1)).2 ∧
      FP.fle (FP.fabs (FP.sub
          (bisectionStep (fun _ => some (0:ℚ)) (some 0) (some 1)).2
          (bisectionStep (fun _ => some (0:ℚ)) (some 0) (some 1)).1))
        (FP.fabs (FP.sub (some 1) (some 0))) = true) ∧
    (bracketOK (fun _ => some (0:ℚ))
        (brentStep (fun _ => some (0:ℚ))
          { a := some 1, b := some 0, c := some 1, d := some 1, e := some 1 }).b
        (brentStep (fun _ => some (0:ℚ))
          { a := some 1, b := some 0, c := some 1, d := some 1, e := some 1 }).c ∧
      FP.fle (FP.fabs (FP.sub
          (brentStep (fun _ => some (0:ℚ))
            { a := some 1, b := some 0, c := some 1, d := some 1, e := some 1 }).c
          (brentStep (fun _ => some (0:ℚ))
            { a := some 1, b := some 0, c := some 1, d := some 1, e := some 1 }).b))
        (FP.fabs (FP.sub
          ({ a := some 1, b := some 0, c := some 1, d := some 1, e := some 1 }
            : BrentState).c
          ({ a := some 1, b := some 0, c := some 1, d := some 1, e := some 1 }
            : BrentState).b)) = true)) := by
  have Hab : bracketOK (fun _ => some (0:ℚ)) (some 0) (some 1) :=
    ⟨⟨0, rfl⟩, ⟨1, rfl⟩, by simp [FP.mul, FP.fle]⟩
  have Hst : bracketOK (fun _ => some (0:ℚ))
      ({ a := some 1, b := some 0, c := some 1, d := some 1, e := some 1 }
        : BrentState).b
      ({ a := some 1, b := some 0, c := some 1, d := some 1, e := some 1 }
        : BrentState).c :=
    ⟨⟨0, rfl⟩, ⟨1, rfl⟩, by simp [FP.mul, FP.fle]⟩
  exact ⟨Hab, Hst,
    bisection_brent_bracket_preserved (fun _ => some (0:ℚ)) (fun _ => rfl)
      (some 0) (some 1)
      { a := some 1, b := some 0, c := some 1, d := some 1, e := some 1 }
      Hab Hst⟩
